import Mathlib

/-!
Verification of the spooling carbon client (`src/lib/carbon/client.py`) and of
the spool-file sender utility (`src/bin/json-lineproto-socket-sender.py`).

The Python code is shallowly embedded: the per-destination send queue
(`collections.deque`) is a `List` whose head is the left end of the deque;
the factory's mutable attributes that the verified properties touch
(`queue`, `fullQueueDrops`, `attemptedRelays`, and whether the `queueFull`
Deferred has been called) form an explicit state record, and each producer or
drain entry point becomes a state-transition function.  Numbers carried by
datapoints and the configured `QUEUE_LOW_WATERMARK_PCT` fraction are modelled
as rationals.  Fallible OS calls return `Except`, with Python 2 exception
classes (`IOError` versus `OSError`) kept distinct, exactly as the interpreter
the code targets keeps them (the sender file uses Python 2 only syntax such as
`print` statements and `cPickle`, so the repository runs on CPython 2, where
`except IOError` does not catch an `OSError`).
-/

/-! ## Settings

`carbon.conf.settings` fields read by `client.py`.  They are configuration
constants; the model passes them explicitly. -/

structure Settings where
  MAX_QUEUE_SIZE : Nat
  MAX_DATAPOINTS_PER_MESSAGE : Nat
  QUEUE_LOW_WATERMARK_PCT : ℚ

/-- `SEND_QUEUE_LOW_WATERMARK = settings.MAX_QUEUE_SIZE * settings.QUEUE_LOW_WATERMARK_PCT`
(module-level constant of `client.py`). -/
def SEND_QUEUE_LOW_WATERMARK (st : Settings) : ℚ :=
  (st.MAX_QUEUE_SIZE : ℚ) * st.QUEUE_LOW_WATERMARK_PCT

/-- A queue entry as stored by `SpoolingCarbonClientFactory.enqueue`: the pair
`(metric, datapoint)` where a datapoint is the pair `(timestamp, value)`. -/
abbrev Datapoint := String × (ℚ × ℚ)

/-! ## Queue primitives

`self.queue` is a `collections.deque`; the model is a `List Datapoint` whose
head is the left end (the end `popleft` and `appendleft` operate on). -/

/-- `SpoolingCarbonClientFactory.enqueue`: `self.queue.append((metric, datapoint))`
(append at the right end, i.e. the back of the list). -/
def enqueue (q : List Datapoint) (m : String) (d : ℚ × ℚ) : List Datapoint :=
  q ++ [(m, d)]

/-- `SpoolingCarbonClientFactory.enqueue_from_left`:
`self.queue.appendleft((metric, datapoint))`. -/
def enqueue_from_left (q : List Datapoint) (m : String) (d : ℚ × ℚ) : List Datapoint :=
  (m, d) :: q

/-- `deque.popleft()`, made total: `none` models the `IndexError` raised on an
empty deque (which `takeSomeFromQueue` catches). -/
def popleft (q : List Datapoint) : Option (Datapoint × List Datapoint) :=
  match q with
  | [] => none
  | x :: xs => some (x, xs)

/-- The generator `yield_max_datapoints` inside `takeSomeFromQueue`: loop at
most `fuel = settings.MAX_DATAPOINTS_PER_MESSAGE` times, popping from the left
of the queue and stopping early (via the caught `IndexError`) when the queue
runs out.  Returns the yielded items together with the remaining queue. -/
def yield_max_datapoints : Nat → List Datapoint → List Datapoint × List Datapoint
  | 0, q => ([], q)
  | fuel + 1, q =>
    match popleft q with
    | none => ([], q)
    | some (x, rest) =>
      let r := yield_max_datapoints fuel rest
      (x :: r.1, r.2)

/-- `SpoolingCarbonClientFactory.takeSomeFromQueue`:
`list(yield_max_datapoints())` with the loop bound
`settings.MAX_DATAPOINTS_PER_MESSAGE`; the first component is the returned
list, the second the queue contents left behind. -/
def takeSomeFromQueue (st : Settings) (q : List Datapoint) : List Datapoint × List Datapoint :=
  yield_max_datapoints st.MAX_DATAPOINTS_PER_MESSAGE q

theorem yield_max_datapoints_eq (fuel : Nat) :
    ∀ q : List Datapoint, yield_max_datapoints fuel q = (q.take fuel, q.drop fuel) := by
  induction fuel with
  | zero => intro q; simp [yield_max_datapoints]
  | succ n ih =>
    intro q
    cases q with
    | nil => simp [yield_max_datapoints, popleft]
    | cons x xs => simp [yield_max_datapoints, popleft, ih xs]

theorem takeSomeFromQueue_eq (st : Settings) (q : List Datapoint) :
    takeSomeFromQueue st q
      = (q.take st.MAX_DATAPOINTS_PER_MESSAGE, q.drop st.MAX_DATAPOINTS_PER_MESSAGE) :=
  yield_max_datapoints_eq st.MAX_DATAPOINTS_PER_MESSAGE q

/-- C9: `takeSomeFromQueue` removes and returns exactly
`min(MAX_DATAPOINTS_PER_MESSAGE, len(queue))` items from the head of the
queue: the returned batch is the first `MAX_DATAPOINTS_PER_MESSAGE` elements
(all of them when the queue is shorter, none when it is empty), what remains
is exactly the rest of the queue, and the function is total — the only
exception the loop can raise, the `IndexError` from `popleft` on an empty
deque, is caught and ends the batch. -/
theorem takeSomeFromQueue_takes_min (st : Settings) (q : List Datapoint) :
    (takeSomeFromQueue st q).1 = q.take st.MAX_DATAPOINTS_PER_MESSAGE
    ∧ (takeSomeFromQueue st q).2 = q.drop st.MAX_DATAPOINTS_PER_MESSAGE
    ∧ (takeSomeFromQueue st q).1.length = min st.MAX_DATAPOINTS_PER_MESSAGE q.length
    ∧ (takeSomeFromQueue st q).1 ++ (takeSomeFromQueue st q).2 = q
    ∧ (q = [] → (takeSomeFromQueue st q).1 = []) := by
  have h := yield_max_datapoints_eq st.MAX_DATAPOINTS_PER_MESSAGE q
  refine ⟨?_, ?_, ?_, ?_, ?_⟩
  · simp [takeSomeFromQueue, h]
  · simp [takeSomeFromQueue, h]
  · simp [takeSomeFromQueue, h, List.length_take]
  · simp [takeSomeFromQueue, h]
  · intro hq; subst hq; simp [takeSomeFromQueue, h]

/-! ## Repeated batch extraction

`SpoolingCarbonClientProtocol.sendQueued` keeps rescheduling itself while
`hasQueuedDatapoints()` holds, each cycle calling `takeSomeFromQueue` once;
`drainAll` is the concatenation of the batches such a chain of cycles
extracts, run to exhaustion.  The fuel argument only bounds the recursion:
whenever `MAX_DATAPOINTS_PER_MESSAGE >= 1`, a queue of length `n` is fully
drained within `n` cycles. -/

def drainLoop (st : Settings) : Nat → List Datapoint → List Datapoint
  | 0, _ => []
  | fuel + 1, q =>
    if q.isEmpty then []
    else
      (takeSomeFromQueue st q).1 ++ drainLoop st fuel (takeSomeFromQueue st q).2

def drainAll (st : Settings) (q : List Datapoint) : List Datapoint :=
  drainLoop st q.length q

theorem drainLoop_eq_self (st : Settings) (hb : 1 ≤ st.MAX_DATAPOINTS_PER_MESSAGE) :
    ∀ (fuel : Nat) (q : List Datapoint), q.length ≤ fuel → drainLoop st fuel q = q := by
  intro fuel
  induction fuel with
  | zero =>
    intro q hq
    have : q = [] := List.eq_nil_of_length_eq_zero (Nat.le_zero.mp hq)
    simp [this, drainLoop]
  | succ n ih =>
    intro q hq
    cases q with
    | nil => simp [drainLoop]
    | cons x xs =>
      have htake : (takeSomeFromQueue st (x :: xs)).1
          = (x :: xs).take st.MAX_DATAPOINTS_PER_MESSAGE := by
        rw [takeSomeFromQueue_eq]
      have hdrop : (takeSomeFromQueue st (x :: xs)).2
          = (x :: xs).drop st.MAX_DATAPOINTS_PER_MESSAGE := by
        rw [takeSomeFromQueue_eq]
      have hlen : ((x :: xs).drop st.MAX_DATAPOINTS_PER_MESSAGE).length ≤ n := by
        rw [List.length_drop]
        have : (x :: xs).length - st.MAX_DATAPOINTS_PER_MESSAGE ≤ (x :: xs).length - 1 :=
          Nat.sub_le_sub_left hb _
        omega
      calc drainLoop st (n + 1) (x :: xs)
          = (takeSomeFromQueue st (x :: xs)).1 ++
              drainLoop st n (takeSomeFromQueue st (x :: xs)).2 := by
            simp [drainLoop]
        _ = (x :: xs).take st.MAX_DATAPOINTS_PER_MESSAGE ++
              (x :: xs).drop st.MAX_DATAPOINTS_PER_MESSAGE := by
            rw [htake, hdrop, ih _ hlen]
        _ = x :: xs := List.take_append_drop _ _

theorem drainAll_eq_self (st : Settings) (hb : 1 ≤ st.MAX_DATAPOINTS_PER_MESSAGE)
    (q : List Datapoint) : drainAll st q = q :=
  drainLoop_eq_self st hb q.length q (Nat.le_refl _)

/-! ## Enqueue interleavings

An arbitrary interleaving of the two insertion paths.  Capacity is enforced by
`sendDatapoint` at its call site, not inside `enqueue` (below capacity every
normal-priority `sendDatapoint` reduces to exactly one `enqueue`), so order
properties are stated over raw `enqueue` / `enqueue_from_left` sequences. -/

inductive EnqOp where
  | normal (m : String) (d : ℚ × ℚ)
  | high (m : String) (d : ℚ × ℚ)

/-- Run a sequence of insertions against a starting queue. -/
def applyEnqueues (q : List Datapoint) : List EnqOp → List Datapoint
  | [] => q
  | EnqOp.normal m d :: rest => applyEnqueues (enqueue q m d) rest
  | EnqOp.high m d :: rest => applyEnqueues (enqueue_from_left q m d) rest

/-- The normal-priority entries of an insertion sequence, in insertion order. -/
def normalItems : List EnqOp → List Datapoint
  | [] => []
  | EnqOp.normal m d :: rest => (m, d) :: normalItems rest
  | EnqOp.high _ _ :: rest => normalItems rest

/-- The high-priority entries of an insertion sequence, in insertion order. -/
def highItems : List EnqOp → List Datapoint
  | [] => []
  | EnqOp.normal _ _ :: rest => highItems rest
  | EnqOp.high m d :: rest => (m, d) :: highItems rest

theorem applyEnqueues_eq (ops : List EnqOp) :
    ∀ q : List Datapoint,
      applyEnqueues q ops = (highItems ops).reverse ++ q ++ normalItems ops := by
  induction ops with
  | nil => intro q; simp [applyEnqueues, highItems, normalItems]
  | cons op rest ih =>
    intro q
    cases op with
    | normal m d =>
      simp [applyEnqueues, highItems, normalItems, enqueue, ih]
    | high m d =>
      simp [applyEnqueues, highItems, normalItems, enqueue_from_left, ih]

/-- C4: for any interleaving of normal-priority (`enqueue`, the body of
`sendDatapoint` below capacity) and high-priority (`enqueue_from_left`)
insertions into an initially empty queue, draining the queue by repeated
`takeSomeFromQueue` batches yields all high-priority entries first — so every
high-priority datapoint precedes every normal-priority datapoint, in
particular any normal-priority one enqueued earlier — followed by all the
normal-priority datapoints in their original insertion order (FIFO). -/
theorem drain_order_fifo_with_high_first (st : Settings)
    (hb : 1 ≤ st.MAX_DATAPOINTS_PER_MESSAGE) (ops : List EnqOp) :
    drainAll st (applyEnqueues [] ops) = (highItems ops).reverse ++ normalItems ops := by
  rw [drainAll_eq_self st hb, applyEnqueues_eq]
  simp

/-- C4 witness: three insertions — normal `a`, high-priority `b`, normal `c` —
with batch size 2 drain as `[b, a, c]`: `b` jumps ahead of the earlier `a`,
and `a`, `c` stay in FIFO order. -/
theorem drain_order_fifo_with_high_first_witness :
    1 ≤ (Settings.mk 10 2 (4/5)).MAX_DATAPOINTS_PER_MESSAGE
    ∧ drainAll (Settings.mk 10 2 (4/5))
        (applyEnqueues [] [EnqOp.normal "a" (1, 2), EnqOp.high "b" (3, 4),
          EnqOp.normal "c" (5, 6)])
      = [("b", (3, 4)), ("a", (1, 2)), ("c", (5, 6))] := by
  refine ⟨by decide, ?_⟩
  rw [drain_order_fifo_with_high_first (Settings.mk 10 2 (4/5)) (by decide)]
  rfl

/-- C10: high-priority datapoints drain in LIFO order among themselves — after
two consecutive `sendHighPriorityDatapoint` insertions (two
`enqueue_from_left` calls with no dequeue in between), repeated batch
extraction returns the later-enqueued entry `(m2, d2)` strictly before the
earlier-enqueued `(m1, d1)`. -/
theorem high_priority_lifo (st : Settings) (hb : 1 ≤ st.MAX_DATAPOINTS_PER_MESSAGE)
    (q : List Datapoint) (m1 m2 : String) (d1 d2 : ℚ × ℚ) :
    drainAll st (enqueue_from_left (enqueue_from_left q m1 d1) m2 d2)
      = (m2, d2) :: (m1, d1) :: q :=
  drainAll_eq_self st hb _

/-- C10 witness: with batch size 2, pushing high-priority `a` then `b` onto an
empty queue drains as `[b, a]` — the later push comes out first. -/
theorem high_priority_lifo_witness :
    1 ≤ (Settings.mk 10 2 (4/5)).MAX_DATAPOINTS_PER_MESSAGE
    ∧ drainAll (Settings.mk 10 2 (4/5))
        (enqueue_from_left (enqueue_from_left [] "a" (1, 2)) "b" (3, 4))
      = [("b", (3, 4)), ("a", (1, 2))] :=
  ⟨by decide, high_priority_lifo (Settings.mk 10 2 (4/5)) (by decide) [] "a" "b" (1, 2) (3, 4)⟩

/-! ## Factory state machine

The mutable attributes of one `SpoolingCarbonClientFactory` (plus its attached
protocol) that the enqueue and drain entry points touch.  `queueFullCalled`
models `self.queueFull.called`: the `queueFull` Deferred has fired and has not
yet been replaced by a fresh one (which only `queueSpaceCallback` does).
Firing a Deferred is recorded as an event emitted by the step
(`firedFull` = `queueFull.callback(...)` ran, i.e. `state.events.cacheFull()`;
`firedSpace` = `queueHasSpace.callback(...)` ran, which via
`queueSpaceCallback` re-arms `queueFull` and calls
`state.events.cacheSpaceAvailable()`).  Instrumentation counters live in an
external sink in the source; the two the claims mention are carried in the
state.  The spool-file write performed by `_sendDatapoints` and the
interval-driven rotation inside `sendQueued` touch only the file (modelled in
the spool-file section below), never the queue or the backpressure state, so
the drain-cycle step elides them. -/

structure FactoryState where
  queue : List Datapoint
  fullQueueDrops : Nat
  attemptedRelays : Nat
  queueFullCalled : Bool

/-- Factory state right after `SpoolingCarbonClientFactory.__init__`: empty
deque, zeroed counters, `queueFull` not yet called. -/
def initialFactory : FactoryState :=
  { queue := [], fullQueueDrops := 0, attemptedRelays := 0, queueFullCalled := false }

/-- The backpressure notifications a single step may emit. -/
structure StepEvents where
  firedFull : Bool
  firedSpace : Bool

def noEvents : StepEvents := { firedFull := false, firedSpace := false }

/-- The three entry points that read or mutate one factory's queue and
backpressure state: the two producer paths and one drain cycle (one invocation
of `SpoolingCarbonClientProtocol.sendQueued`). -/
inductive Op where
  | sendDatapoint (m : String) (d : ℚ × ℚ)
  | sendHighPriorityDatapoint (m : String) (d : ℚ × ℚ)
  | sendQueued

/-- One step of the factory:

* `sendDatapoint`: increment `attemptedRelays`; if `queueSize >= MAX_QUEUE_SIZE`
  then fire `queueFull` unless already called, and increment `fullQueueDrops`
  (the datapoint is dropped); otherwise `enqueue`.
* `sendHighPriorityDatapoint`: increment `attemptedRelays`; always
  `enqueue_from_left`, with no capacity check.
* `sendQueued`: read `queueSize` (before extraction); return if the queue is
  empty; extract one `takeSomeFromQueue` batch; if `queueFull.called` and the
  captured `queueSize` is below `SEND_QUEUE_LOW_WATERMARK`, call
  `queueHasSpace.callback`, whose `queueSpaceCallback` re-arms `queueFull`. -/
def stepOp (st : Settings) (s : FactoryState) : Op → FactoryState × StepEvents
  | Op.sendDatapoint m d =>
    if st.MAX_QUEUE_SIZE ≤ s.queue.length then
      ({ s with attemptedRelays := s.attemptedRelays + 1,
                queueFullCalled := true,
                fullQueueDrops := s.fullQueueDrops + 1 },
       { firedFull := !s.queueFullCalled, firedSpace := false })
    else
      ({ s with attemptedRelays := s.attemptedRelays + 1,
                queue := enqueue s.queue m d }, noEvents)
  | Op.sendHighPriorityDatapoint m d =>
    ({ s with attemptedRelays := s.attemptedRelays + 1,
              queue := enqueue_from_left s.queue m d }, noEvents)
  | Op.sendQueued =>
    if s.queue.isEmpty then (s, noEvents)
    else
      let rest := (takeSomeFromQueue st s.queue).2
      if s.queueFullCalled ∧ (s.queue.length : ℚ) < SEND_QUEUE_LOW_WATERMARK st then
        ({ s with queue := rest, queueFullCalled := false },
         { firedFull := false, firedSpace := true })
      else
        ({ s with queue := rest }, noEvents)

/-- The factory state after a sequence of entry-point invocations. -/
def runOps (st : Settings) (s : FactoryState) : List Op → FactoryState
  | [] => s
  | op :: rest => runOps st (stepOp st s op).1 rest

/-- The per-step backpressure events along a sequence of invocations, in
order (one `StepEvents` per `Op`). -/
def runEvents (st : Settings) (s : FactoryState) : List Op → List StepEvents
  | [] => []
  | op :: rest => (stepOp st s op).2 :: runEvents st (stepOp st s op).1 rest

/-- How many `sendDatapoint` calls of the sequence arrive while the queue is
at or above `MAX_QUEUE_SIZE` (the rejected normal-priority inserts). -/
def rejectedCount (st : Settings) (s : FactoryState) : List Op → Nat
  | [] => 0
  | op :: rest =>
    (match op with
     | Op.sendDatapoint _ _ => if st.MAX_QUEUE_SIZE ≤ s.queue.length then 1 else 0
     | _ => 0) + rejectedCount st (stepOp st s op).1 rest

theorem runOps_fullQueueDrops (st : Settings) (ops : List Op) :
    ∀ s : FactoryState,
      (runOps st s ops).fullQueueDrops = s.fullQueueDrops + rejectedCount st s ops := by
  induction ops with
  | nil => intro s; simp [runOps, rejectedCount]
  | cons op rest ih =>
    intro s
    cases op with
    | sendDatapoint m d =>
      by_cases h : st.MAX_QUEUE_SIZE ≤ s.queue.length
      · simp [runOps, rejectedCount, stepOp, h, ih]
        omega
      · simp [runOps, rejectedCount, stepOp, h, ih]
    | sendHighPriorityDatapoint m d =>
      simp [runOps, rejectedCount, stepOp, ih]
    | sendQueued =>
      by_cases h : s.queue.isEmpty
      · simp [runOps, rejectedCount, stepOp, h, ih]
      · by_cases h2 : s.queueFullCalled ∧ (s.queue.length : ℚ) < SEND_QUEUE_LOW_WATERMARK st
        · simp [runOps, rejectedCount, stepOp, h, h2, ih]
        · simp [runOps, rejectedCount, stepOp, h, h2, ih]

/-- C1: along any sequence of `sendDatapoint` / `sendHighPriorityDatapoint` /
drain-cycle invocations on one factory (every reachable state is
`runOps st initialFactory ops` for the prefix `ops` leading to it):
(1) `fullQueueDrops` equals exactly the number of normal-priority inserts that
arrived while the queue was at or above `MAX_QUEUE_SIZE` and were rejected;
(2) whenever a `sendDatapoint` call actually inserts (the queue grew), the
resulting queue length is at most `MAX_QUEUE_SIZE`, and the call neither drops
nor counts a drop;
(3) a `sendHighPriorityDatapoint` call always inserts — the queue always grows
by one, with no capacity check — and never increments the drop counter. -/
theorem sendDatapoint_bound_and_drop_count (st : Settings) (ops : List Op)
    (m : String) (d : ℚ × ℚ) :
    (runOps st initialFactory ops).fullQueueDrops
        = rejectedCount st initialFactory ops
    ∧ (((stepOp st (runOps st initialFactory ops) (Op.sendDatapoint m d)).1.queue.length
          ≠ (runOps st initialFactory ops).queue.length) →
        (stepOp st (runOps st initialFactory ops) (Op.sendDatapoint m d)).1.queue.length
            ≤ st.MAX_QUEUE_SIZE
        ∧ (stepOp st (runOps st initialFactory ops) (Op.sendDatapoint m d)).1.fullQueueDrops
            = (runOps st initialFactory ops).fullQueueDrops)
    ∧ (stepOp st (runOps st initialFactory ops)
          (Op.sendHighPriorityDatapoint m d)).1.queue.length
        = (runOps st initialFactory ops).queue.length + 1
    ∧ (stepOp st (runOps st initialFactory ops)
          (Op.sendHighPriorityDatapoint m d)).1.fullQueueDrops
        = (runOps st initialFactory ops).fullQueueDrops := by
  set s := runOps st initialFactory ops with hs
  refine ⟨by rw [hs, runOps_fullQueueDrops]; simp [initialFactory], ?_, ?_, ?_⟩
  · intro hgrow
    by_cases h : st.MAX_QUEUE_SIZE ≤ s.queue.length
    · exact absurd (by simp [stepOp, h]) hgrow
    · constructor
      · simp only [stepOp, if_neg h, enqueue]
        simp
        omega
      · simp [stepOp, h]
  · simp [stepOp, enqueue_from_left]
  · simp [stepOp]

/-- C1 witness: on the empty-prefix run with `MAX_QUEUE_SIZE = 10`, the drop
counter matches the rejected count and a successful normal-priority insert
leaves the queue within the bound. -/
theorem sendDatapoint_bound_and_drop_count_witness :
    (runOps (Settings.mk 10 5 (4/5)) initialFactory []).fullQueueDrops
        = rejectedCount (Settings.mk 10 5 (4/5)) initialFactory []
    ∧ (stepOp (Settings.mk 10 5 (4/5)) (runOps (Settings.mk 10 5 (4/5)) initialFactory [])
          (Op.sendDatapoint "a" (0, 0))).1.queue.length
        ≤ (Settings.mk 10 5 (4/5)).MAX_QUEUE_SIZE := by
  have h := sendDatapoint_bound_and_drop_count (Settings.mk 10 5 (4/5)) [] "a" (0, 0)
  exact ⟨h.1, (h.2.1 (by decide)).1⟩

/-! ## The space-available signal of one drain cycle (C2)

In `sendQueued` the local `queueSize` is read *before* `takeSomeFromQueue`
runs, and the watermark test after the batch extraction compares that
pre-extraction value, not the new queue length. -/

/-- C2 (amended): for a drain cycle entered with a non-empty queue after the
queue-full signal has fired (and not yet been re-armed), `queueHasSpace` fires
if and only if the queue length *at the start of the cycle, before that
cycle's batch extraction*, is below `SEND_QUEUE_LOW_WATERMARK`. -/
theorem sendQueued_space_signal_iff_presize (st : Settings) (s : FactoryState)
    (hfull : s.queueFullCalled = true) (hne : s.queue ≠ []) :
    ((stepOp st s Op.sendQueued).2.firedSpace = true
      ↔ (s.queue.length : ℚ) < SEND_QUEUE_LOW_WATERMARK st) := by
  have hempty : s.queue.isEmpty = false := by
    cases hq : s.queue with
    | nil => exact absurd hq hne
    | cons x xs => simp
  by_cases hlt : (s.queue.length : ℚ) < SEND_QUEUE_LOW_WATERMARK st
  · simp [stepOp, hempty, hfull, hlt]
  · simp [stepOp, hempty, hfull, hlt, noEvents]

/-- C2 witness: with capacity 2 and watermark fraction 3/4 (watermark 3/2), a
cycle on a one-element queue in the full-signalled state fires `queueHasSpace`
exactly when its starting length 1 is below the watermark. -/
theorem sendQueued_space_signal_iff_presize_witness :
    (FactoryState.mk [("a", (0, 0))] 1 3 true).queueFullCalled = true
    ∧ (FactoryState.mk [("a", (0, 0))] 1 3 true).queue ≠ []
    ∧ ((stepOp (Settings.mk 2 5 (3/4)) (FactoryState.mk [("a", (0, 0))] 1 3 true)
          Op.sendQueued).2.firedSpace = true
        ↔ ((FactoryState.mk [("a", (0, 0))] 1 3 true).queue.length : ℚ)
            < SEND_QUEUE_LOW_WATERMARK (Settings.mk 2 5 (3/4))) :=
  ⟨rfl, by simp,
    sendQueued_space_signal_iff_presize (Settings.mk 2 5 (3/4))
      (FactoryState.mk [("a", (0, 0))] 1 3 true) rfl (by simp)⟩

/-- The operation sequence reaching the C2 counterexample state: with
`MAX_QUEUE_SIZE = 2`, three normal-priority sends fill the queue to 2 and make
the third send fire `queueFull` and drop. -/
def opsReachingFull : List Op :=
  [Op.sendDatapoint "a" (0, 0), Op.sendDatapoint "b" (0, 0), Op.sendDatapoint "c" (0, 0)]

/-- C2 counterexample to the claim as stated: in the factory state reached by
`opsReachingFull` under capacity 2 and watermark fraction 1/2 (watermark 1),
the queue-full signal has fired and the queue is non-empty, and the drain
cycle's batch extraction leaves the queue length (0) strictly below the
watermark — yet `queueHasSpace` does not fire, because the code compares the
queue length captured *before* the extraction (2, not below 1).  So the
"space available" signal does not fire iff the *post-extraction* length
dropped below the watermark. -/
theorem sendQueued_space_signal_counterexample :
    (runOps (Settings.mk 2 5 (1/2)) initialFactory opsReachingFull).queueFullCalled = true
    ∧ (runOps (Settings.mk 2 5 (1/2)) initialFactory opsReachingFull).queue ≠ []
    ∧ (((stepOp (Settings.mk 2 5 (1/2))
          (runOps (Settings.mk 2 5 (1/2)) initialFactory opsReachingFull)
          Op.sendQueued).1.queue.length : ℚ)
        < SEND_QUEUE_LOW_WATERMARK (Settings.mk 2 5 (1/2)))
    ∧ (stepOp (Settings.mk 2 5 (1/2))
          (runOps (Settings.mk 2 5 (1/2)) initialFactory opsReachingFull)
          Op.sendQueued).2.firedSpace = false := by
  have hrun : runOps (Settings.mk 2 5 (1/2)) initialFactory opsReachingFull
      = FactoryState.mk [("a", (0, 0)), ("b", (0, 0))] 1 3 true := by
    norm_num [opsReachingFull, runOps, stepOp, enqueue, initialFactory, noEvents]
  rw [hrun]
  refine ⟨rfl, by simp, ?_, ?_⟩
  · norm_num [stepOp, takeSomeFromQueue, yield_max_datapoints, popleft,
      SEND_QUEUE_LOW_WATERMARK, noEvents]
  · norm_num [stepOp, takeSomeFromQueue, yield_max_datapoints, popleft,
      SEND_QUEUE_LOW_WATERMARK, noEvents]

/-! ## Backpressure debouncing (C3)

`sendDatapoint` fires `queueFull` only when `not self.queueFull.called`, and
the only code path that replaces `queueFull` with a fresh (uncalled) Deferred
is `queueSpaceCallback`, run when `queueHasSpace` fires.  So between two
firings of the full signal a space-available firing must occur. -/

theorem stepOp_firedFull_false (st : Settings) (s : FactoryState) (op : Op)
    (hfull : s.queueFullCalled = true) : (stepOp st s op).2.firedFull = false := by
  cases op with
  | sendDatapoint m d =>
    by_cases h : st.MAX_QUEUE_SIZE ≤ s.queue.length
    · simp [stepOp, h, hfull]
    · simp [stepOp, h, noEvents]
  | sendHighPriorityDatapoint m d => simp [stepOp, noEvents]
  | sendQueued =>
    by_cases h : s.queue.isEmpty = true
    · simp [stepOp, h, noEvents]
    · by_cases h2 : s.queueFullCalled = true ∧ (s.queue.length : ℚ) < SEND_QUEUE_LOW_WATERMARK st
      · simp [stepOp, h, hfull, h2.2]
      · simp only [hfull, true_and] at h2
        simp [stepOp, h, hfull, h2, noEvents]

theorem stepOp_called_preserved (st : Settings) (s : FactoryState) (op : Op)
    (hfull : s.queueFullCalled = true) (hsp : (stepOp st s op).2.firedSpace = false) :
    (stepOp st s op).1.queueFullCalled = true := by
  cases op with
  | sendDatapoint m d =>
    by_cases h : st.MAX_QUEUE_SIZE ≤ s.queue.length
    · simp [stepOp, h]
    · simp [stepOp, h, hfull]
  | sendHighPriorityDatapoint m d => simp [stepOp, hfull]
  | sendQueued =>
    by_cases h : s.queue.isEmpty = true
    · simpa [stepOp, h] using hfull
    · by_cases h2 : s.queueFullCalled = true ∧ (s.queue.length : ℚ) < SEND_QUEUE_LOW_WATERMARK st
      · exact absurd hsp (by simp [stepOp, h, hfull, h2.2])
      · simp only [hfull, true_and] at h2
        simp [stepOp, h, hfull, h2]

theorem stepOp_called_of_firedFull (st : Settings) (s : FactoryState) (op : Op)
    (hf : (stepOp st s op).2.firedFull = true) :
    (stepOp st s op).1.queueFullCalled = true := by
  cases op with
  | sendDatapoint m d =>
    by_cases h : st.MAX_QUEUE_SIZE ≤ s.queue.length
    · simp [stepOp, h]
    · exact absurd hf (by simp [stepOp, h, noEvents])
  | sendHighPriorityDatapoint m d => exact absurd hf (by simp [stepOp, noEvents])
  | sendQueued =>
    by_cases h : s.queue.isEmpty = true
    · exact absurd hf (by simp [stepOp, h, noEvents])
    · by_cases h2 : s.queueFullCalled = true ∧ (s.queue.length : ℚ) < SEND_QUEUE_LOW_WATERMARK st
      · exact absurd hf (by simp [stepOp, h, h2.1, h2.2])
      · exact absurd hf (by
          rcases Bool.eq_false_or_eq_true s.queueFullCalled with hc | hc
          · simp [stepOp, h, hc, noEvents]
            by_cases h3 : (s.queue.length : ℚ) < SEND_QUEUE_LOW_WATERMARK st <;>
              simp [h3, noEvents]
          · simp only [hc, true_and] at h2
            simp [stepOp, h, hc, h2, noEvents])

/-- While `queueFull.called` holds, the full signal cannot fire again before a
space-available firing: any later full firing is preceded by a space firing. -/
theorem no_refire_before_space (st : Settings) :
    ∀ (ops : List Op) (s : FactoryState), s.queueFullCalled = true →
      ∀ j, ((runEvents st s ops).getD j noEvents).firedFull = true →
        ∃ k, k < j ∧ ((runEvents st s ops).getD k noEvents).firedSpace = true := by
  intro ops
  induction ops with
  | nil =>
    intro s hfull j hj
    simp [runEvents, List.getD, noEvents] at hj
  | cons op rest ih =>
    intro s hfull j hj
    cases j with
    | zero =>
      rw [runEvents, List.getD_cons_zero] at hj
      exact absurd hj (by simp [stepOp_firedFull_false st s op hfull])
    | succ j' =>
      by_cases hsp : (stepOp st s op).2.firedSpace = true
      · exact ⟨0, Nat.succ_pos _, by rw [runEvents, List.getD_cons_zero]; exact hsp⟩
      · have hcalled := stepOp_called_preserved st s op hfull (Bool.not_eq_true _ ▸ hsp)
        rw [runEvents, List.getD_cons_succ] at hj
        obtain ⟨k, hk, hsp'⟩ := ih (stepOp st s op).1 hcalled j' hj
        exact ⟨k + 1, Nat.succ_lt_succ hk,
          by rw [runEvents, List.getD_cons_succ]; exact hsp'⟩

theorem debounce_aux (st : Settings) :
    ∀ (ops : List Op) (s : FactoryState) (i j : Nat), i < j →
      ((runEvents st s ops).getD i noEvents).firedFull = true →
      ((runEvents st s ops).getD j noEvents).firedFull = true →
      ∃ k, i < k ∧ k < j ∧ ((runEvents st s ops).getD k noEvents).firedSpace = true := by
  intro ops
  induction ops with
  | nil =>
    intro s i j hij hi hj
    simp [runEvents, List.getD, noEvents] at hi
  | cons op rest ih =>
    intro s i j hij hi hj
    cases i with
    | zero =>
      obtain ⟨j', rfl⟩ : ∃ j', j = j' + 1 := ⟨j - 1, by omega⟩
      rw [runEvents, List.getD_cons_zero] at hi
      rw [runEvents, List.getD_cons_succ] at hj
      have hcalled := stepOp_called_of_firedFull st s op hi
      obtain ⟨k, hk, hsp⟩ := no_refire_before_space st rest (stepOp st s op).1 hcalled j' hj
      exact ⟨k + 1, Nat.succ_pos _, Nat.succ_lt_succ hk,
        by rw [runEvents, List.getD_cons_succ]; exact hsp⟩
    | succ i' =>
      obtain ⟨j', rfl⟩ : ∃ j', j = j' + 1 := ⟨j - 1, by omega⟩
      rw [runEvents, List.getD_cons_succ] at hi
      rw [runEvents, List.getD_cons_succ] at hj
      obtain ⟨k, h1, h2, hsp⟩ := ih (stepOp st s op).1 i' j' (by omega) hi hj
      exact ⟨k + 1, by omega, by omega, by rw [runEvents, List.getD_cons_succ]; exact hsp⟩

/-- C3: along any interleaving of producer calls and drain cycles on one
factory (run from its freshly constructed state), if the queue-full signal
fires at step `i` and again at a later step `j`, then the space-available
signal fired at some step strictly between them — no matter how many further
enqueue attempts find the queue full in the meantime. -/
theorem queueFull_debounced (st : Settings) (ops : List Op) (i j : Nat) (hij : i < j)
    (hi : ((runEvents st initialFactory ops).getD i noEvents).firedFull = true)
    (hj : ((runEvents st initialFactory ops).getD j noEvents).firedFull = true) :
    ∃ k, i < k ∧ k < j ∧
      ((runEvents st initialFactory ops).getD k noEvents).firedSpace = true :=
  debounce_aux st ops initialFactory i j hij hi hj

/-- A trace in which the full signal fires twice (steps 2 and 8) with a
space-available firing in between (step 5): capacity 2, watermark 3/2. -/
def opsDebounce : List Op :=
  [Op.sendDatapoint "a" (0, 0), Op.sendDatapoint "b" (0, 0), Op.sendDatapoint "c" (0, 0),
   Op.sendQueued, Op.sendDatapoint "d" (0, 0), Op.sendQueued,
   Op.sendDatapoint "e" (0, 0), Op.sendDatapoint "f" (0, 0), Op.sendDatapoint "g" (0, 0)]

/-- C3 witness: on `opsDebounce` with capacity 2 and watermark fraction 3/4,
the full signal fires at steps 2 and 8, so a space firing exists strictly
between them. -/
theorem queueFull_debounced_witness :
    ∃ k, 2 < k ∧ k < 8 ∧
      ((runEvents (Settings.mk 2 5 (3/4)) initialFactory opsDebounce).getD
        k noEvents).firedSpace = true :=
  queueFull_debounced (Settings.mk 2 5 (3/4)) opsDebounce 2 8 (by norm_num)
    (by norm_num [opsDebounce, runEvents, stepOp, enqueue, takeSomeFromQueue,
      yield_max_datapoints, popleft, initialFactory, noEvents, SEND_QUEUE_LOW_WATERMARK,
      List.getD_cons_zero, List.getD_cons_succ])
    (by norm_num [opsDebounce, runEvents, stepOp, enqueue, takeSomeFromQueue,
      yield_max_datapoints, popleft, initialFactory, noEvents, SEND_QUEUE_LOW_WATERMARK,
      List.getD_cons_zero, List.getD_cons_succ])

/-! ## Spool-file rotation (C5)

`open_next_queue_file` closes the current temp file and then either
`os.unlink`s it (empty) or `os.rename`s it into the send directory
(non-empty), wrapping only those two calls in `except IOError: pass`.  Under
CPython 2 — the interpreter this repository targets — `IOError` and `OSError`
are distinct classes, neither a subclass of the other, and `os.unlink` /
`os.rename` on a path that no longer exists raise `OSError` (errno `ENOENT`),
not `IOError`.  The model keeps the two classes distinct and lets the handler
catch exactly `IOError`. -/

inductive PyExc where
  | ioError
  | osError
deriving DecidableEq

/-- The spool state of one factory: the open temp file (with the byte count
`self.queue_file.tell()` would report), whether that temp file still exists on
disk (it can be removed externally between rotations), and how many completed
files have been renamed into the send ("ready") directory. -/
structure SpoolState where
  queue_file : Option Nat
  temp_file_present : Bool
  ready_count : Nat
deriving DecidableEq

/-- `os.unlink(self.queue_file_name)`: CPython 2 raises `OSError` (ENOENT)
when the path is gone. -/
def os_unlink (present : Bool) : Except PyExc Unit :=
  if present then Except.ok () else Except.error PyExc.osError

/-- `os.rename(self.queue_file_name, new_name)`: CPython 2 raises `OSError`
(ENOENT) when the source path is gone. -/
def os_rename (present : Bool) : Except PyExc Unit :=
  if present then Except.ok () else Except.error PyExc.osError

/-- `SpoolingCarbonClientFactory.open_next_queue_file`: with a current open
file, close it and delete (size 0) or rename (size > 0) it, the `try` block
around those OS calls handling only `IOError` (`except IOError: pass`); then
open the fresh temp file.  Any exception the handler does not match
propagates to the caller as `Except.error`. -/
def open_next_queue_file (s : SpoolState) : Except PyExc SpoolState :=
  match s.queue_file with
  | none =>
    Except.ok { queue_file := some 0, temp_file_present := true,
                ready_count := s.ready_count }
  | some size =>
    let attempt : Except PyExc Unit :=
      if size = 0 then os_unlink s.temp_file_present else os_rename s.temp_file_present
    match attempt with
    | Except.ok () =>
      Except.ok { queue_file := some 0, temp_file_present := true,
                  ready_count := s.ready_count + (if size = 0 then 0 else 1) }
    | Except.error PyExc.ioError =>
      Except.ok { queue_file := some 0, temp_file_present := true,
                  ready_count := s.ready_count }
    | Except.error e => Except.error e

/-- C5 evaluation at the failing input: when the current temp file (here
non-empty with 5 bytes, and likewise when empty) has been removed externally
before the rotation's OS call, `open_next_queue_file` does not complete the
rotation — the `OSError` raised by `os.rename` (resp. `os.unlink`) escapes
the `except IOError` handler and propagates to the caller, and no new temp
file is opened. -/
theorem open_next_queue_file_externally_removed_propagates :
    open_next_queue_file (SpoolState.mk (some 5) false 0) = Except.error PyExc.osError
    ∧ open_next_queue_file (SpoolState.mk (some 0) false 0) = Except.error PyExc.osError
    ∧ (∀ size : Nat, open_next_queue_file (SpoolState.mk (some size) true 0)
        = Except.ok (SpoolState.mk (some 0) true (if size = 0 then 0 else 1))) := by
  refine ⟨rfl, rfl, ?_⟩
  intro size
  by_cases h : size = 0 <;> simp [open_next_queue_file, os_unlink, os_rename, h]

/-! ## Spool line serialization round trip (C6)

`_sendDatapoints` writes `json.dumps(datapoints) + "\n"` — one
newline-terminated line per batch (`json.dumps` output never contains a raw
newline, since control characters inside strings are escaped), and the sender
reads the file back line by line with `json.loads(line)`.  The file is
modelled as the list of the JSON documents its lines hold; `json.loads` after
`json.dumps` reconstructs the same document tree (the json library contract),
so serialization is modelled at the document-tree level: a batch of
`(metric, (timestamp, value))` tuples dumps to the tree of
`[[metric, [timestamp, value]], ...]` (tuples become JSON arrays), and the
sender-side decoder reads the fields back from the positions the sender's
`line_format` uses (`m[0]`, `m[1][0]`, `m[1][1]`). -/

inductive JVal where
  | jstr (s : String)
  | jnum (q : ℚ)
  | jarr (xs : List JVal)

/-- `json.dumps` applied to one `(metric, (timestamp, value))` tuple. -/
def dumpsDatapoint : Datapoint → JVal
  | (m, (t, v)) => JVal.jarr [JVal.jstr m, JVal.jarr [JVal.jnum t, JVal.jnum v]]

/-- `json.dumps(datapoints)`: the document of one spool line. -/
def dumpsBatch (dps : List Datapoint) : JVal :=
  JVal.jarr (dps.map dumpsDatapoint)

/-- `SpoolingCarbonClientProtocol._sendDatapoints`, restricted to its effect
on the spool file: append one newline-terminated line holding
`json.dumps(datapoints)`. -/
def writeBatch (file : List JVal) (dps : List Datapoint) : List JVal :=
  file ++ [dumpsBatch dps]

/-- Reading one entry `m` of a parsed line back the way the sender's
`line_format` does — metric from `m[0]`, timestamp from `m[1][0]`, value from
`m[1][1]`. -/
def loadsDatapoint : JVal → Option Datapoint
  | JVal.jarr [JVal.jstr m, JVal.jarr [JVal.jnum t, JVal.jnum v]] => some (m, (t, v))
  | _ => none

def loadsEntries : List JVal → Option (List Datapoint)
  | [] => some []
  | x :: xs =>
    match loadsDatapoint x, loadsEntries xs with
    | some d, some ds => some (d :: ds)
    | _, _ => none

/-- `json.loads(line)` followed by the sender's per-entry field access. -/
def loadsBatch : JVal → Option (List Datapoint)
  | JVal.jarr xs => loadsEntries xs
  | _ => none

/-- C6: a batch written by `_sendDatapoints` becomes the last line of the
spool file, and parsing that line back as the sender does reproduces the same
metric names, timestamps and values in the same order. -/
theorem loadsEntries_map_dumps (dps : List Datapoint) :
    loadsEntries (dps.map dumpsDatapoint) = some dps := by
  induction dps with
  | nil => rfl
  | cons d rest ih =>
    obtain ⟨m, t, v⟩ := d
    simp [loadsEntries, loadsDatapoint, dumpsDatapoint, ih]

/-- C6: a batch written by `_sendDatapoints` becomes the last line of the
spool file, and parsing that line back as the sender does reproduces the same
metric names, timestamps and values in the same order. -/
theorem writeBatch_roundTrip (file : List JVal) (dps : List Datapoint) :
    ((writeBatch file dps).getLast?.bind loadsBatch) = some dps := by
  have hlast : (writeBatch file dps).getLast? = some (dumpsBatch dps) := by
    simp [writeBatch]
  rw [hlast]
  simpa [loadsBatch, dumpsBatch] using loadsEntries_map_dumps dps

/-! ## The sender utility (C7, C8)

`json-lineproto-socket-sender.py` measures the file with `f.seek(-1, 2)`
followed by `f.tell()`.  Under CPython 2, seeking to a negative absolute
position raises `IOError` (errno `EINVAL`), so on a zero-byte file the very
first `seek` dies with an uncaught exception; on a file of `n > 0` bytes the
measured `size` is `n - 1`.  Each input line is abstracted by what
`json.loads` plus `line_format` would do with it (`ok` with its batch,
`valueError` when `json.loads` fails, `typeError` when `line_format` rejects
the parsed value), and a transmitted payload is recorded as the batch whose
`line_format` text was passed to `conn.sendall`. -/

inductive LineParse where
  | ok (b : List Datapoint)
  | valueError
  | typeError

/-- One input file: its byte length and its lines' parse outcomes. -/
structure SenderFile where
  byteSize : Nat
  lines : List LineParse

inductive SenderOutcome where
  | exited (code : Nat) (inputDeleted : Bool) (sent : List (List Datapoint))
      (metricCount : Nat)
  | uncaught (e : PyExc) (inputDeleted : Bool) (sent : List (List Datapoint))

/-- The `for line in f` loop.  `p` is the local variable holding the text of
the last successfully formatted line — `None` while it is still unbound:

* `ok b`: `p = line_format(l)`, `metric_count += len(l)`, then
  `conn.sendall(p)` transmits `b`;
* `typeError`: the `except TypeError` handler runs `continue` — the line is
  skipped entirely;
* `valueError`: the `except ValueError` handler has no `continue`, so control
  falls through to `conn.sendall(p)`: with `p` unbound this raises `NameError`
  inside the send `try`, whose `except Exception` handler calls
  `sys.exit(100)`; with `p` bound it transmits the previous line's payload
  again.

After the loop: the stats line is reported and `os.unlink(sys.argv[3])`
deletes the input, the script ending with status 0. -/
def sendLoop : List LineParse → Option (List Datapoint) → Nat →
    List (List Datapoint) → SenderOutcome
  | [], _, count, sent => SenderOutcome.exited 0 true sent count
  | LineParse.ok b :: rest, _, count, sent =>
    sendLoop rest (some b) (count + b.length) (sent ++ [b])
  | LineParse.typeError :: rest, p, count, sent => sendLoop rest p count sent
  | LineParse.valueError :: rest, p, count, sent =>
    match p with
    | none => SenderOutcome.exited 100 false sent count
    | some prev => sendLoop rest p count (sent ++ [prev])

/-- `main()` of the sender: measure the file via `f.seek(-1, 2)` / `f.tell()`
(`IOError` on a zero-byte file); if the measured size is 0, unlink the file
and `sys.exit(1)`; otherwise connect (`sys.exit(100)` on failure, before
anything is sent) and run the send loop. -/
def sender_main (f : SenderFile) (connectOk : Bool) : SenderOutcome :=
  if f.byteSize = 0 then SenderOutcome.uncaught PyExc.ioError false []
  else if f.byteSize - 1 = 0 then SenderOutcome.exited 1 true [] 0
  else if connectOk then sendLoop f.lines none 0 []
  else SenderOutcome.exited 100 false [] 0

/-- C7 evaluation at the failing input: on a zero-byte input file the sender
does not reach the `size == 0` branch at all — `f.seek(-1, 2)` raises an
uncaught `IOError`, so the file is not deleted and there is no `sys.exit(1)`
(no connection is attempted either, but only because the process dies first).
The intended delete-and-exit-1 branch is instead taken by one-byte files,
whose measured size `tell()` reports as 0. -/
theorem sender_empty_file_crashes :
    sender_main (SenderFile.mk 0 []) true = SenderOutcome.uncaught PyExc.ioError false []
    ∧ sender_main (SenderFile.mk 0 []) false = SenderOutcome.uncaught PyExc.ioError false []
    ∧ sender_main (SenderFile.mk 1 [LineParse.ok [("x", (1, 2))]]) true
        = SenderOutcome.exited 1 true [] 0 :=
  ⟨rfl, rfl, rfl⟩

/-- C8 evaluation at the failing inputs: a line that fails to parse as JSON is
not simply skipped.  If the malformed line is the first line, the unbound
local `p` makes the fall-through `conn.sendall(p)` raise `NameError`, which
the send handler turns into `sys.exit(100)` — the run aborts with nothing
sent and the input not deleted.  If the malformed line comes after a good
line, the previous line's payload is transmitted a second time.  (Its entries
are indeed never added to `metric_count`.) -/
theorem sender_malformed_line_not_skipped :
    sender_main (SenderFile.mk 9 [LineParse.valueError]) true
        = SenderOutcome.exited 100 false [] 0
    ∧ sender_main
        (SenderFile.mk 40 [LineParse.ok [("cpu.load", (1000, 5))], LineParse.valueError])
        true
        = SenderOutcome.exited 0 true
            [[("cpu.load", (1000, 5))], [("cpu.load", (1000, 5))]] 1 :=
  ⟨rfl, rfl⟩
